import Mathlib

/-!
Formal model of the random-background image service.

The Go code is embedded shallowly: machine integers become `Int`, Go
float64 arithmetic is modelled as exact rational arithmetic over `ℚ`
(on every concrete input appearing below the double-precision
computation and the exact one produce the same integers), byte slices
and pixel grids are abstract types supplied through an operations
record, and the process-wide ARC cache is modelled as an association
list (capacity and eviction are not exercised by the properties
considered here).
-/

namespace RandomBackground

/-- A rectangle as produced by Go's image.Rect: the constructor swaps
coordinates given in the wrong order so that minX ≤ maxX and minY ≤ maxY. -/
structure GoRect where
  minX : Int
  minY : Int
  maxX : Int
  maxY : Int
deriving DecidableEq

/-- Go image.Rect(x0, y0, x1, y1). -/
def imageRect (x0 y0 x1 y1 : Int) : GoRect :=
  let px : Int × Int := if x0 > x1 then (x1, x0) else (x0, x1)
  let py : Int × Int := if y0 > y1 then (y1, y0) else (y0, y1)
  { minX := px.1, minY := py.1, maxX := px.2, maxY := py.2 }

/-- Go conversion int(x) applied to a float64: truncation toward zero. -/
def goTrunc (q : ℚ) : Int := if q < 0 then -Int.floor (-q) else Int.floor q

/-- The imageSize struct: a named target dimension. -/
structure ImageSize where
  name : String
  width : Int
  height : Int
deriving DecidableEq

/-- getCroppingRectangleForAspectRatio from the source (the centered,
half-pixel-rounded variant shared by the two later snapshots): keep the
full width and center vertically when the original is relatively taller
than the target ratio, keep the full height and center horizontally when
it is relatively wider, and return the full frame when the ratios agree.
Go's int division truncates toward zero, hence Int.tdiv. -/
def getCroppingRectangleForAspectRatio (size : ImageSize) ( newAspectRatio : ℚ) : GoRect :=
  let aspectRatio : ℚ := (size.width : ℚ) / (size.height : ℚ)
  let startX : Int := 0
  let startY : Int := 0
  let endX : Int := size.width
  let endY : Int := size.height
  if aspectRatio < newAspectRatio then
    let height : Int := goTrunc ((size.width : ℚ) / newAspectRatio + 1/2)
    let startY : Int := Int.tdiv (size.height - height) 2
    let endY : Int := startY + height
    imageRect startX startY endX endY
  else if aspectRatio > newAspectRatio then
    let width : Int := goTrunc ((size.height : ℚ) * newAspectRatio + 1/2)
    let startX : Int := Int.tdiv (size.width - width) 2
    let endX : Int := startX + width
    imageRect startX startY endX endY
  else
    imageRect startX startY endX endY

lemma goTrunc_of_nonneg {q : ℚ} (h : 0 ≤ q) : goTrunc q = Int.floor q := by
  simp [goTrunc, not_lt.mpr h]

lemma imageRect_of_le {x0 y0 x1 y1 : Int} (hx : x0 ≤ x1) (hy : y0 ≤ y1) :
    imageRect x0 y0 x1 y1 = ⟨x0, y0, x1, y1⟩ := by
  simp [imageRect, not_lt.mpr hx, not_lt.mpr hy]

lemma crop_eq_of_ratio_lt {n : String} {w h : Int} {r : ℚ}
    (hlt : (w : ℚ) / (h : ℚ) < r) :
    getCroppingRectangleForAspectRatio ⟨n, w, h⟩ r =
      imageRect 0 (Int.tdiv (h - goTrunc ((w : ℚ) / r + 1/2)) 2) w
        (Int.tdiv (h - goTrunc ((w : ℚ) / r + 1/2)) 2 + goTrunc ((w : ℚ) / r + 1/2)) := by
  simp only [getCroppingRectangleForAspectRatio]
  rw [if_pos hlt]

lemma crop_eq_of_ratio_gt {n : String} {w h : Int} {r : ℚ}
    (hgt : r < (w : ℚ) / (h : ℚ)) :
    getCroppingRectangleForAspectRatio ⟨n, w, h⟩ r =
      imageRect (Int.tdiv (w - goTrunc ((h : ℚ) * r + 1/2)) 2) 0
        (Int.tdiv (w - goTrunc ((h : ℚ) * r + 1/2)) 2 + goTrunc ((h : ℚ) * r + 1/2)) h := by
  simp only [getCroppingRectangleForAspectRatio]
  rw [if_neg (not_lt.mpr hgt.le), if_pos hgt]

lemma crop_eq_of_ratio_eq {n : String} {w h : Int} {r : ℚ}
    (heq : (w : ℚ) / (h : ℚ) = r) :
    getCroppingRectangleForAspectRatio ⟨n, w, h⟩ r = imageRect 0 0 w h := by
  simp only [getCroppingRectangleForAspectRatio]
  rw [if_neg (by rw [heq]; exact lt_irrefl r), if_neg (by rw [heq]; exact lt_irrefl r)]

/-- Full characterization of the crop rectangle on nondegenerate inputs:
inside the original frame, nonempty, and matching the requested ratio up
to the half-pixel rounding.  The hypotheses r ≤ 2w and 1 ≤ 2hr exclude
exactly the degenerate originals on which the rounded crop dimension
collapses to zero. -/
theorem crop_rect_spec (size : ImageSize) (r : ℚ)
    (hw : 0 < size.width) (hh : 0 < size.height) (hr : 0 < r)
    (hwr : r ≤ 2 * (size.width : ℚ)) (hhr : 1 ≤ 2 * (size.height : ℚ) * r) :
    0 ≤ (getCroppingRectangleForAspectRatio size r).minX ∧
    (getCroppingRectangleForAspectRatio size r).minX <
      (getCroppingRectangleForAspectRatio size r).maxX ∧
    (getCroppingRectangleForAspectRatio size r).maxX ≤ size.width ∧
    0 ≤ (getCroppingRectangleForAspectRatio size r).minY ∧
    (getCroppingRectangleForAspectRatio size r).minY <
      (getCroppingRectangleForAspectRatio size r).maxY ∧
    (getCroppingRectangleForAspectRatio size r).maxY ≤ size.height ∧
    |(((getCroppingRectangleForAspectRatio size r).maxX -
          (getCroppingRectangleForAspectRatio size r).minX : Int) : ℚ) -
        r * (((getCroppingRectangleForAspectRatio size r).maxY -
          (getCroppingRectangleForAspectRatio size r).minY : Int) : ℚ)| ≤ max 1 r := by
  obtain ⟨n, w, h⟩ := size
  simp only at hw hh hwr hhr ⊢
  have hwQ : (0 : ℚ) < (w : ℚ) := by exact_mod_cast hw
  have hhQ : (0 : ℚ) < (h : ℚ) := by exact_mod_cast hh
  have hr0 : r ≠ 0 := ne_of_gt hr
  rcases lt_trichotomy ((w : ℚ) / (h : ℚ)) r with hlt | heq | hgt
  · -- original is relatively taller: full width, centered vertical band
    rw [crop_eq_of_ratio_lt hlt]
    have hx0 : (0 : ℚ) ≤ (w : ℚ) / r + 1/2 := by positivity
    rw [goTrunc_of_nonneg hx0]
    set H : Int := Int.floor ((w : ℚ) / r + 1/2) with hHdef
    have hH1 : 1 ≤ H := by
      rw [hHdef]
      apply Int.le_floor.mpr
      have hhalf : (1 : ℚ)/2 ≤ (w : ℚ) / r := by
        rw [le_div_iff₀ hr]
        linarith
      push_cast
      linarith
    have hHh : H ≤ h := by
      have hwrh : (w : ℚ) / r < (h : ℚ) := by
        rw [div_lt_iff₀ hr]
        have := (div_lt_iff₀ hhQ).mp hlt
        linarith
      have : ((w : ℚ) / r + 1/2) < ((h + 1 : Int) : ℚ) := by push_cast; linarith
      rw [hHdef]
      exact Int.lt_add_one_iff.mp (Int.floor_lt.mpr this)
    have hfl_le : (H : ℚ) ≤ (w : ℚ) / r + 1/2 := hHdef ▸ Int.floor_le _
    have hfl_gt : (w : ℚ) / r + 1/2 - 1 < (H : ℚ) := by
      have := Int.lt_floor_add_one ((w : ℚ) / r + 1/2)
      rw [hHdef]
      linarith
    have hhH : 0 ≤ h - H := by omega
    have hsy0 : 0 ≤ Int.tdiv (h - H) 2 := Int.tdiv_nonneg hhH (by norm_num)
    have hsyle : Int.tdiv (h - H) 2 ≤ h - H := by
      rw [Int.tdiv_eq_ediv hhH (by norm_num)]
      exact Int.ediv_le_self 2 hhH
    rw [imageRect_of_le hw.le (by omega)]
    dsimp only
    refine ⟨le_refl 0, hw, le_refl w, hsy0, by omega, by omega, ?_⟩
    have hsimp : (Int.tdiv (h - H) 2 + H - Int.tdiv (h - H) 2 : Int) = H := by omega
    rw [sub_zero, hsimp]
    have hub : r * (H : ℚ) ≤ (w : ℚ) + r / 2 := by
      have h1 : r * (H : ℚ) ≤ r * ((w : ℚ) / r + 1/2) :=
        mul_le_mul_of_nonneg_left hfl_le hr.le
      have h2 : r * ((w : ℚ) / r + 1/2) = (w : ℚ) + r / 2 := by
        field_simp
        ring
      linarith
    have hlb : (w : ℚ) - r / 2 < r * (H : ℚ) := by
      have h1 : r * ((w : ℚ) / r + 1/2 - 1) < r * (H : ℚ) :=
        mul_lt_mul_of_pos_left hfl_gt hr
      have h2 : r * ((w : ℚ) / r + 1/2 - 1) = (w : ℚ) - r / 2 := by
        field_simp
        ring
      linarith
    have habs : |(w : ℚ) - r * (H : ℚ)| ≤ r / 2 :=
      abs_le.mpr ⟨by linarith, by linarith⟩
    have hmax : r / 2 ≤ max 1 r := le_trans (by linarith) (le_max_right 1 r)
    linarith [habs, hmax]
  · -- ratios agree: full frame
    rw [crop_eq_of_ratio_eq heq, imageRect_of_le hw.le hh.le]
    dsimp only
    refine ⟨le_refl 0, hw, le_refl w, le_refl 0, hh, le_refl h, ?_⟩
    have hwrh : (w : ℚ) = r * (h : ℚ) := by
      rw [← heq]
      field_simp
    rw [sub_zero, sub_zero, hwrh, sub_self, abs_zero]
    exact le_trans zero_le_one (le_max_left 1 r)
  · -- original is relatively wider: full height, centered horizontal band
    rw [crop_eq_of_ratio_gt hgt]
    have hx0 : (0 : ℚ) ≤ (h : ℚ) * r + 1/2 := by positivity
    rw [goTrunc_of_nonneg hx0]
    set W : Int := Int.floor ((h : ℚ) * r + 1/2) with hWdef
    have hW1 : 1 ≤ W := by
      rw [hWdef]
      apply Int.le_floor.mpr
      push_cast
      linarith
    have hWw : W ≤ w := by
      have hrw : (h : ℚ) * r < (w : ℚ) := by
        have := (lt_div_iff₀ hhQ).mp hgt
        linarith
      have : ((h : ℚ) * r + 1/2) < ((w + 1 : Int) : ℚ) := by push_cast; linarith
      rw [hWdef]
      exact Int.lt_add_one_iff.mp (Int.floor_lt.mpr this)
    have hfl_le : (W : ℚ) ≤ (h : ℚ) * r + 1/2 := hWdef ▸ Int.floor_le _
    have hfl_gt : (h : ℚ) * r + 1/2 - 1 < (W : ℚ) := by
      have := Int.lt_floor_add_one ((h : ℚ) * r + 1/2)
      rw [hWdef]
      linarith
    have hwW : 0 ≤ w - W := by omega
    have hsx0 : 0 ≤ Int.tdiv (w - W) 2 := Int.tdiv_nonneg hwW (by norm_num)
    have hsxle : Int.tdiv (w - W) 2 ≤ w - W := by
      rw [Int.tdiv_eq_ediv hwW (by norm_num)]
      exact Int.ediv_le_self 2 hwW
    rw [imageRect_of_le (by omega) hh.le]
    dsimp only
    refine ⟨hsx0, by omega, by omega, le_refl 0, hh, le_refl h, ?_⟩
    have hsimp : (Int.tdiv (w - W) 2 + W - Int.tdiv (w - W) 2 : Int) = W := by omega
    rw [hsimp, sub_zero]
    have habs : |(W : ℚ) - r * (h : ℚ)| ≤ 1 / 2 := by
      apply abs_le.mpr
      constructor
      · linarith [hfl_gt]
      · linarith [hfl_le]
    have hmax : (1 : ℚ) / 2 ≤ max 1 r := le_trans (by norm_num) (le_max_left 1 r)
    linarith [habs, hmax]

/-- C1 as literally claimed fails: for the original 1x3 with target ratio 4
the computed crop height rounds to zero and the returned rectangle
(0,1)-(1,1) is empty, violating minY < maxY. -/
theorem C1_counterexample :
    ¬(0 ≤ (getCroppingRectangleForAspectRatio ⟨"", 1, 3⟩ 4).minX ∧
      (getCroppingRectangleForAspectRatio ⟨"", 1, 3⟩ 4).minX <
        (getCroppingRectangleForAspectRatio ⟨"", 1, 3⟩ 4).maxX ∧
      (getCroppingRectangleForAspectRatio ⟨"", 1, 3⟩ 4).maxX ≤ 1 ∧
      0 ≤ (getCroppingRectangleForAspectRatio ⟨"", 1, 3⟩ 4).minY ∧
      (getCroppingRectangleForAspectRatio ⟨"", 1, 3⟩ 4).minY <
        (getCroppingRectangleForAspectRatio ⟨"", 1, 3⟩ 4).maxY ∧
      (getCroppingRectangleForAspectRatio ⟨"", 1, 3⟩ 4).maxY ≤ 3 ∧
      |(((getCroppingRectangleForAspectRatio ⟨"", 1, 3⟩ 4).maxX -
            (getCroppingRectangleForAspectRatio ⟨"", 1, 3⟩ 4).minX : Int) : ℚ) -
          4 * (((getCroppingRectangleForAspectRatio ⟨"", 1, 3⟩ 4).maxY -
            (getCroppingRectangleForAspectRatio ⟨"", 1, 3⟩ 4).minY : Int) : ℚ)| ≤ max 1 4) := by
  have hrect : getCroppingRectangleForAspectRatio ⟨"", 1, 3⟩ 4 = ⟨0, 1, 1, 1⟩ := by
    rw [crop_eq_of_ratio_lt (by norm_num)]
    rw [goTrunc_of_nonneg (by norm_num)]
    have hfl : Int.floor (((1 : Int) : ℚ) / 4 + 1/2) = 0 := by
      rw [Int.floor_eq_iff]
      norm_num
    rw [hfl]
    decide
  rw [hrect]
  intro hcl
  exact absurd hcl.2.2.2.2.1 (by decide)

/-- C1 (amended): on every positive original and positive target ratio that
additionally satisfy r ≤ 2·width and 1 ≤ 2·height·r (ruling out the
degenerate inputs of the counterexample), the crop rectangle lies inside
[0,width]×[0,height] with nonempty sides and its dimensions match the
target ratio to within the half-pixel rounding. -/
theorem C1_theorem (size : ImageSize) (r : ℚ)
    (hw : 0 < size.width) (hh : 0 < size.height) (hr : 0 < r)
    (hwr : r ≤ 2 * (size.width : ℚ)) (hhr : 1 ≤ 2 * (size.height : ℚ) * r) :
    0 ≤ (getCroppingRectangleForAspectRatio size r).minX ∧
    (getCroppingRectangleForAspectRatio size r).minX <
      (getCroppingRectangleForAspectRatio size r).maxX ∧
    (getCroppingRectangleForAspectRatio size r).maxX ≤ size.width ∧
    0 ≤ (getCroppingRectangleForAspectRatio size r).minY ∧
    (getCroppingRectangleForAspectRatio size r).minY <
      (getCroppingRectangleForAspectRatio size r).maxY ∧
    (getCroppingRectangleForAspectRatio size r).maxY ≤ size.height ∧
    |(((getCroppingRectangleForAspectRatio size r).maxX -
          (getCroppingRectangleForAspectRatio size r).minX : Int) : ℚ) -
        r * (((getCroppingRectangleForAspectRatio size r).maxY -
          (getCroppingRectangleForAspectRatio size r).minY : Int) : ℚ)| ≤ max 1 r :=
  crop_rect_spec size r hw hh hr hwr hhr

/-- Witness for C1 at the 3000x2402 original with target ratio 1920/1080. -/
theorem C1_witness :
    0 ≤ (getCroppingRectangleForAspectRatio ⟨"1080p", 3000, 2402⟩ ((1920 : ℚ) / 1080)).minX ∧
    (getCroppingRectangleForAspectRatio ⟨"1080p", 3000, 2402⟩ ((1920 : ℚ) / 1080)).minX <
      (getCroppingRectangleForAspectRatio ⟨"1080p", 3000, 2402⟩ ((1920 : ℚ) / 1080)).maxX ∧
    (getCroppingRectangleForAspectRatio ⟨"1080p", 3000, 2402⟩ ((1920 : ℚ) / 1080)).maxX ≤
      (⟨"1080p", 3000, 2402⟩ : ImageSize).width ∧
    0 ≤ (getCroppingRectangleForAspectRatio ⟨"1080p", 3000, 2402⟩ ((1920 : ℚ) / 1080)).minY ∧
    (getCroppingRectangleForAspectRatio ⟨"1080p", 3000, 2402⟩ ((1920 : ℚ) / 1080)).minY <
      (getCroppingRectangleForAspectRatio ⟨"1080p", 3000, 2402⟩ ((1920 : ℚ) / 1080)).maxY ∧
    (getCroppingRectangleForAspectRatio ⟨"1080p", 3000, 2402⟩ ((1920 : ℚ) / 1080)).maxY ≤
      (⟨"1080p", 3000, 2402⟩ : ImageSize).height ∧
    |(((getCroppingRectangleForAspectRatio ⟨"1080p", 3000, 2402⟩ ((1920 : ℚ) / 1080)).maxX -
          (getCroppingRectangleForAspectRatio ⟨"1080p", 3000, 2402⟩ ((1920 : ℚ) / 1080)).minX :
            Int) : ℚ) -
        ((1920 : ℚ) / 1080) *
          (((getCroppingRectangleForAspectRatio ⟨"1080p", 3000, 2402⟩ ((1920 : ℚ) / 1080)).maxY -
            (getCroppingRectangleForAspectRatio ⟨"1080p", 3000, 2402⟩ ((1920 : ℚ) / 1080)).minY :
              Int) : ℚ)| ≤ max 1 ((1920 : ℚ) / 1080) :=
  C1_theorem ⟨"1080p", 3000, 2402⟩ ((1920 : ℚ) / 1080) (by norm_num) (by norm_num)
    (by norm_num) (by norm_num) (by norm_num)

/-- C2: the two literal cases from the unit tests: a 3000x2402 original
cropped for ratio 1920/1080 yields (0,357)-(3000,2045), and a 3000x1000
original yields (611,0)-(2389,1000). -/
theorem C2_theorem :
    getCroppingRectangleForAspectRatio ⟨"", 3000, 2402⟩ ((1920 : ℚ) / 1080) =
        ⟨0, 357, 3000, 2045⟩ ∧
    getCroppingRectangleForAspectRatio ⟨"", 3000, 1000⟩ ((1920 : ℚ) / 1080) =
        ⟨611, 0, 2389, 1000⟩ := by
  constructor
  · rw [crop_eq_of_ratio_lt (by norm_num)]
    rw [goTrunc_of_nonneg (by norm_num)]
    have hfl : Int.floor (((3000 : Int) : ℚ) / ((1920 : ℚ) / 1080) + 1/2) = 1688 := by
      rw [Int.floor_eq_iff]
      norm_num
    rw [hfl]
    decide
  · rw [crop_eq_of_ratio_gt (by norm_num)]
    rw [goTrunc_of_nonneg (by norm_num)]
    have hfl : Int.floor (((1000 : Int) : ℚ) * ((1920 : ℚ) / 1080) + 1/2) = 1778 := by
      rw [Int.floor_eq_iff]
      norm_num
    rw [hfl]
    decide

/-- C3 as literally claimed fails: for the original 1x100 with target
ratio 10 the rounded crop height int(1/10 + 0.5) is 0 and the returned
rectangle (0,50)-(1,50) has height zero. -/
theorem C3_counterexample :
    ¬(0 < (getCroppingRectangleForAspectRatio ⟨"", 1, 100⟩ 10).maxX -
          (getCroppingRectangleForAspectRatio ⟨"", 1, 100⟩ 10).minX ∧
      0 < (getCroppingRectangleForAspectRatio ⟨"", 1, 100⟩ 10).maxY -
          (getCroppingRectangleForAspectRatio ⟨"", 1, 100⟩ 10).minY) := by
  have hrect : getCroppingRectangleForAspectRatio ⟨"", 1, 100⟩ 10 = ⟨0, 50, 1, 50⟩ := by
    rw [crop_eq_of_ratio_lt (by norm_num)]
    rw [goTrunc_of_nonneg (by norm_num)]
    have hfl : Int.floor (((1 : Int) : ℚ) / 10 + 1/2) = 0 := by
      rw [Int.floor_eq_iff]
      norm_num
    rw [hfl]
    decide
  rw [hrect]
  intro hcl
  exact absurd hcl.2 (by decide)

/-- C3 (amended): on every positive original and positive target ratio
that additionally satisfy r ≤ 2·width and 1 ≤ 2·height·r, the returned
rectangle has strictly positive width and strictly positive height. -/
theorem C3_theorem (size : ImageSize) (r : ℚ)
    (hw : 0 < size.width) (hh : 0 < size.height) (hr : 0 < r)
    (hwr : r ≤ 2 * (size.width : ℚ)) (hhr : 1 ≤ 2 * (size.height : ℚ) * r) :
    0 < (getCroppingRectangleForAspectRatio size r).maxX -
        (getCroppingRectangleForAspectRatio size r).minX ∧
    0 < (getCroppingRectangleForAspectRatio size r).maxY -
        (getCroppingRectangleForAspectRatio size r).minY := by
  obtain ⟨-, h2, -, -, h5, -, -⟩ := crop_rect_spec size r hw hh hr hwr hhr
  omega

/-- Witness for C3 at the 3000x1000 original with target ratio 1920/1080. -/
theorem C3_witness :
    0 < (getCroppingRectangleForAspectRatio ⟨"", 3000, 1000⟩ ((1920 : ℚ) / 1080)).maxX -
        (getCroppingRectangleForAspectRatio ⟨"", 3000, 1000⟩ ((1920 : ℚ) / 1080)).minX ∧
    0 < (getCroppingRectangleForAspectRatio ⟨"", 3000, 1000⟩ ((1920 : ℚ) / 1080)).maxY -
        (getCroppingRectangleForAspectRatio ⟨"", 3000, 1000⟩ ((1920 : ℚ) / 1080)).minY :=
  C3_theorem ⟨"", 3000, 1000⟩ ((1920 : ℚ) / 1080) (by norm_num) (by norm_num) (by norm_num)
    (by norm_num) (by norm_num)

/-! ## Size catalog, cache keys and the two-tier byte cache -/

/-- imageSize.String(): "WxH" via strconv.Itoa. -/
def sizeString (size : ImageSize) : String :=
  toString size.width ++ "x" ++ toString size.height

/-- imageSizes.String(): the size names joined by ", ". -/
def sizesString (sizes : List ImageSize) : String :=
  String.intercalate ", " (sizes.map (fun size => size.name))

/-- imageSizes.Get(name): first size whose name matches. -/
def sizesGet (sizes : List ImageSize) (name : String) : Option ImageSize :=
  sizes.find? (fun sizeCandidate => sizeCandidate.name == name)

/-- getImageSizes(): the fixed catalog of the canonical snapshot. -/
def getImageSizes : List ImageSize :=
  [⟨"small", 640, 640⟩, ⟨"large", 1024, 1024⟩]

/-- Cache key for the normalized original: url + "|original". -/
def originalImageCacheKey (url : String) : String := url ++ "|original"

/-- Cache key for a finished size: url + "|" + size.String(). -/
def imageCacheKey (url : String) (size : ImageSize) : String :=
  url ++ "|" ++ sizeString size

/-- The two key shapes used by the cache, as (SourceURL, variant) pairs. -/
inductive CacheVariant where
  | original
  | sized (size : ImageSize)
deriving DecidableEq

def cacheKeyFor (url : String) : CacheVariant → String
  | CacheVariant.original => originalImageCacheKey url
  | CacheVariant.sized size => imageCacheKey url size

/-- The suffix after the last bar of each key shape. -/
def variantSfx : CacheVariant → String
  | CacheVariant.original => "original"
  | CacheVariant.sized size => sizeString size

/-- The variants actually stored by the canonical snapshot: the
normalized original plus one per catalog size. -/
def catalogVariants : List CacheVariant :=
  CacheVariant.original :: getImageSizes.map CacheVariant.sized

/-- The ARC cache modelled as an association list: Add prepends (the
newest entry wins a lookup, matching overwrite semantics), Get scans. -/
abbrev Cache (Blob : Type) := List (String × Blob)

def cacheGet {Blob : Type} : Cache Blob → String → Option Blob
  | [], _ => none
  | (k, v) :: rest, key => if k = key then some v else cacheGet rest key

def cacheAdd {Blob : Type} (cache : Cache Blob) (key : String) (v : Blob) : Cache Blob :=
  (key, v) :: cache

lemma cacheKeyFor_data (url : String) (v : CacheVariant) :
    (cacheKeyFor url v).data = url.data ++ '|' :: (variantSfx v).data := by
  cases v with
  | original =>
    show (url ++ "|original").data = _
    rw [String.data_append]
    rfl
  | sized size =>
    show (url ++ "|" ++ sizeString size).data = _
    rw [String.data_append, String.data_append, List.append_assoc]
    rfl

lemma append_bar_inj {u1 u2 s1 s2 : List Char}
    (h1 : '|' ∉ s1) (h2 : '|' ∉ s2)
    (h : u1 ++ '|' :: s1 = u2 ++ '|' :: s2) : u1 = u2 ∧ s1 = s2 := by
  induction u1 generalizing u2 with
  | nil =>
    cases u2 with
    | nil => simpa using h
    | cons c u2tail =>
      exfalso
      simp only [List.nil_append, List.cons_append, List.cons.injEq] at h
      exact h1 (h.2 ▸ List.mem_append_right u2tail (List.mem_cons_self '|' s2))
  | cons c u1tail ih =>
    cases u2 with
    | nil =>
      exfalso
      simp only [List.cons_append, List.nil_append, List.cons.injEq] at h
      exact h2 (h.2 ▸ List.mem_append_right u1tail (List.mem_cons_self '|' s1))
    | cons d u2tail =>
      simp only [List.cons_append, List.cons.injEq] at h
      obtain ⟨hu, hs⟩ := ih h.2
      exact ⟨by rw [h.1, hu], hs⟩

lemma variant_no_bar : ∀ v ∈ catalogVariants, '|' ∉ (variantSfx v).data := by decide

lemma variantSfx_inj : ∀ v1 ∈ catalogVariants, ∀ v2 ∈ catalogVariants,
    (variantSfx v1).data = (variantSfx v2).data → v1 = v2 := by decide

/-- C5: over the variants actually used (normalized original plus the
catalog sizes), the cache-key computation is injective in the
(SourceURL, variant) pair, and consequently a stored entry is invisible
to a lookup under any other pair. -/
theorem C5_theorem (u1 u2 : String) (v1 v2 : CacheVariant) {Blob : Type}
    (cache : Cache Blob) (b : Blob)
    (hv1 : v1 ∈ catalogVariants) (hv2 : v2 ∈ catalogVariants) :
    (cacheKeyFor u1 v1 = cacheKeyFor u2 v2 → u1 = u2 ∧ v1 = v2) ∧
    (¬(u1 = u2 ∧ v1 = v2) →
      cacheGet (cacheAdd cache (cacheKeyFor u1 v1) b) (cacheKeyFor u2 v2) =
        cacheGet cache (cacheKeyFor u2 v2)) := by
  have hinj : cacheKeyFor u1 v1 = cacheKeyFor u2 v2 → u1 = u2 ∧ v1 = v2 := by
    intro heq
    have hd : u1.data ++ '|' :: (variantSfx v1).data =
        u2.data ++ '|' :: (variantSfx v2).data := by
      rw [← cacheKeyFor_data, ← cacheKeyFor_data, heq]
    obtain ⟨hu, hs⟩ :=
      append_bar_inj (variant_no_bar v1 hv1) (variant_no_bar v2 hv2) hd
    exact ⟨String.ext hu, variantSfx_inj v1 hv1 v2 hv2 hs⟩
  refine ⟨hinj, fun hne => ?_⟩
  have hkey : cacheKeyFor u1 v1 ≠ cacheKeyFor u2 v2 := fun heq => hne (hinj heq)
  simp only [cacheAdd, cacheGet, if_neg hkey]

/-- Witness for C5: storing under (url1, small) is invisible to a lookup
under (url2, small). -/
theorem C5_witness :
    cacheGet
      (cacheAdd ([] : Cache String)
        (cacheKeyFor "http://a/1.jpg" (CacheVariant.sized ⟨"small", 640, 640⟩)) "bytes")
      (cacheKeyFor "http://a/2.jpg" (CacheVariant.sized ⟨"small", 640, 640⟩)) = none :=
  (( C5_theorem "http://a/1.jpg" "http://a/2.jpg"
      (CacheVariant.sized ⟨"small", 640, 640⟩) (CacheVariant.sized ⟨"small", 640, 640⟩)
      [] "bytes" (by decide) (by decide)).2 (by decide)).trans rfl

/-! ## The resize pipeline and the request dispatcher -/

/-- Observable effects of a request: network fetches and decode attempts. -/
inductive Event where
  | fetch (url : String)
  | decodeTry
deriving DecidableEq

/-- The collaborators of the pipeline: network client, codec and pixel
transforms, over abstract byte blobs and pixel grids.  nilBlob is Go's
zero value for a byte slice; an empty byte slice never decodes.
Encoding to an in-memory buffer cannot fail and is modelled total. -/
structure ImageOps (Blob Img : Type) where
  fetch : String → Option Blob
  decode : Blob → Option Img
  gaussianBlur : Img → Nat → Img
  crop : Img → GoRect → Img
  resize : Img → Int → Int → Img
  jpegEncode : Nat → Img → Blob
  boundsSize : Img → Int × Int
  nilBlob : Blob
  decode_nil : decode nilBlob = none

/-- const imageQuality = 85: quality for finished outputs. -/
def imageQuality : Nat := 85

/-- resizeAndCropImage: decode, crop to the target aspect ratio via the
geometry engine, resample to the exact target dimensions, and encode at
the delivery quality. -/
def resizeAndCropImage {Blob Img : Type} (ops : ImageOps Blob Img) (imageData : Blob)
    (size : ImageSize) : Option Blob × List Event :=
  match ops.decode imageData with
  | none => (none, [Event.decodeTry])
  | some originalImage =>
    let bsize := ops.boundsSize originalImage
    let originalSize : ImageSize := ⟨"", bsize.1, bsize.2⟩
    let resizedAspectRatio : ℚ := (size.width : ℚ) / (size.height : ℚ)
    let croppedImage := ops.crop originalImage
      (getCroppingRectangleForAspectRatio originalSize resizedAspectRatio)
    let result := ops.resize croppedImage size.width size.height
    (some (ops.jpegEncode imageQuality result), [Event.decodeTry])

/-- getOriginalImage: on a cache hit return the cached normalized bytes;
on a miss fetch the raw bytes, decode, blur (radius 30), re-encode
near-losslessly (quality 100) and store under url|original.  Exactly as
in the source, the named return value imageResult is never assigned on
the miss path, so that path returns Go nil bytes (nilBlob) with a nil
error. -/
def getOriginalImage {Blob Img : Type} (ops : ImageOps Blob Img) (cache : Cache Blob)
    (url : String) : Option Blob × Cache Blob × List Event :=
  match cacheGet cache (originalImageCacheKey url) with
  | some cachedOriginalImage => (some cachedOriginalImage, cache, [])
  | none =>
    match ops.fetch url with
    | none => (none, cache, [Event.fetch url])
    | some originalImageData =>
      match ops.decode originalImageData with
      | none => (none, cache, [Event.fetch url, Event.decodeTry])
      | some originalImage =>
        let blurred := ops.gaussianBlur originalImage 30
        let encoded := ops.jpegEncode 100 blurred
        (some ops.nilBlob,
          cacheAdd cache (originalImageCacheKey url) encoded,
          [Event.fetch url, Event.decodeTry])

/-- getImage: look up the finished (url, size) entry; on a miss obtain
the normalized original through getOriginalImage, resize-and-crop it to
the requested size and store the result under the (url, size) key. -/
def getImage {Blob Img : Type} (ops : ImageOps Blob Img) (cache : Cache Blob)
    (url : String) (size : ImageSize) : Option Blob × Cache Blob × List Event :=
  match cacheGet cache (imageCacheKey url size) with
  | some cachedImage => (some cachedImage, cache, [])
  | none =>
    match getOriginalImage ops cache url with
    | (none, cache1, events1) => (none, cache1, events1)
    | (some originalImage, cache1, events1) =>
      match resizeAndCropImage ops originalImage size with
      | (none, events2) => (none, cache1, events1 ++ events2)
      | (some imageResult, events2) =>
        (some imageResult, cacheAdd cache1 (imageCacheKey url size) imageResult,
          events1 ++ events2)

/-- The three response shapes of the handler. -/
inductive Response (Blob : Type) where
  | badRequest (message : String)
  | serviceUnavailable (message : String)
  | okImage (contentType : String) (body : Blob)
deriving DecidableEq

def unavailableMessage : String :=
  "Unable to return an image at this moment, try again in a bit"

/-- sendImage: resolve the size name (client error listing the catalog
when unknown), bail out with service-unavailable on an empty pool,
otherwise pick the pseudo-random pool entry and serve getImage's result,
mapping any error to the same service-unavailable message. -/
def sendImage {Blob Img : Type} (ops : ImageOps Blob Img) (cache : Cache Blob)
    (imageURLs : List String) (randValue : Nat) (sizeName : String) :
    Response Blob × Cache Blob × List Event :=
  match sizesGet getImageSizes sizeName with
  | none =>
    (Response.badRequest ("The URL needs to end with one of: " ++ sizesString getImageSizes),
      cache, [])
  | some size =>
    if imageURLs.length = 0 then
      (Response.serviceUnavailable unavailableMessage, cache, [])
    else
      match getImage ops cache (imageURLs.getD (randValue % imageURLs.length) "") size with
      | (none, cache1, events1) =>
        (Response.serviceUnavailable unavailableMessage, cache1, events1)
      | (some image, cache1, events1) =>
        (Response.okImage "image/jpeg" image, cache1, events1)

/-- A concrete instantiation of the collaborators over symbolic strings,
for evaluating the pipeline on closed inputs. -/
def testOps : ImageOps String String where
  fetch := fun url => some ("raw:" ++ url)
  decode := fun b => if b = "" then none else some ("img:" ++ b)
  gaussianBlur := fun i radius => "blur" ++ toString radius ++ ":" ++ i
  crop := fun i _ => "crop:" ++ i
  resize := fun i _ _ => "resize:" ++ i
  jpegEncode := fun q i => "jpeg" ++ toString q ++ ":" ++ i
  boundsSize := fun _ => (1000, 800)
  nilBlob := ""
  decode_nil := by decide

lemma sendImage_empty_pool {Blob Img : Type} (ops : ImageOps Blob Img) (cache : Cache Blob)
    (randValue : Nat) (sizeName : String) (size : ImageSize)
    (hfound : sizesGet getImageSizes sizeName = some size) :
    sendImage ops cache [] randValue sizeName =
      (Response.serviceUnavailable unavailableMessage, cache, []) := by
  simp [sendImage, hfound]

/-- C6: with an empty source pool, every defined size name gets the
service-unavailable response, the cache is untouched and no fetch or
decode happens (the event trace is empty). -/
theorem C6_theorem {Blob Img : Type} (ops : ImageOps Blob Img) (cache : Cache Blob)
    (randValue : Nat) (sizeName : String) (size : ImageSize)
    (hfound : sizesGet getImageSizes sizeName = some size) :
    sendImage ops cache [] randValue sizeName =
      (Response.serviceUnavailable unavailableMessage, cache, []) :=
  sendImage_empty_pool ops cache randValue sizeName size hfound

/-- Witness for C6 at the defined size name "small". -/
theorem C6_witness :
    sendImage testOps ([] : Cache String) ([] : List String) 0 "small" =
      (Response.serviceUnavailable unavailableMessage, [], []) :=
  C6_theorem testOps [] 0 "small" ⟨"small", 640, 640⟩ (by decide)

/-- C7: an unknown size name yields the client-error response with the
message listing the catalog names, the cache untouched and no effects;
the joined name list is "small, large" and contains every defined name
exactly once. -/
theorem C7_theorem {Blob Img : Type} (ops : ImageOps Blob Img) (cache : Cache Blob)
    (imageURLs : List String) (randValue : Nat) (sizeName : String)
    (hnone : sizesGet getImageSizes sizeName = none) :
    sendImage ops cache imageURLs randValue sizeName =
      (Response.badRequest ("The URL needs to end with one of: " ++ sizesString getImageSizes),
        cache, []) ∧
    sizesString getImageSizes = "small, large" ∧
    ∀ size ∈ getImageSizes,
      (getImageSizes.map (fun s => s.name)).count size.name = 1 := by
  refine ⟨by simp [sendImage, hnone], by decide, by decide⟩

/-- Witness for C7 at the undefined size name "huge". -/
theorem C7_witness :
    sendImage testOps ([] : Cache String) ["http://a/1.jpg"] 0 "huge" =
      (Response.badRequest ("The URL needs to end with one of: " ++ sizesString getImageSizes),
        [], []) :=
  (C7_theorem testOps [] ["http://a/1.jpg"] 0 "huge" (by decide)).1

/-- C4 fails on the code: on a double miss the dispatcher does store the
blurred, near-losslessly re-encoded full original (no crop) under the
url|original key, but getOriginalImage returns nil bytes instead of
those normalized bytes, so the subsequent resize fails to decode and the
call returns an error without producing or storing the (url, size)
output. -/
theorem C4_theorem :
    getImage testOps [] "http://img/p.jpg" ⟨"small", 640, 640⟩ =
      (none,
        [(originalImageCacheKey "http://img/p.jpg", "jpeg100:blur30:img:raw:http://img/p.jpg")],
        [Event.fetch "http://img/p.jpg", Event.decodeTry, Event.decodeTry]) ∧
    cacheGet (getImage testOps [] "http://img/p.jpg" ⟨"small", 640, 640⟩).2.1
      (imageCacheKey "http://img/p.jpg" ⟨"small", 640, 640⟩) = none := by
  constructor
  · decide
  · decide

/-- C9 fails on the code: the first call returns an error and no bytes
(only the normalized original gets cached), and the second call is not a
(url, size) cache hit — that key is still absent — but a recomputation
from the cached normalized original, which then does populate the key. -/
theorem C9_theorem :
    (getImage testOps [] "http://img/p.jpg" ⟨"small", 640, 640⟩).1 = none ∧
    cacheGet (getImage testOps [] "http://img/p.jpg" ⟨"small", 640, 640⟩).2.1
      (imageCacheKey "http://img/p.jpg" ⟨"small", 640, 640⟩) = none ∧
    getImage testOps (getImage testOps [] "http://img/p.jpg" ⟨"small", 640, 640⟩).2.1
        "http://img/p.jpg" ⟨"small", 640, 640⟩ =
      (some "jpeg85:resize:crop:img:jpeg100:blur30:img:raw:http://img/p.jpg",
        [(imageCacheKey "http://img/p.jpg" ⟨"small", 640, 640⟩,
            "jpeg85:resize:crop:img:jpeg100:blur30:img:raw:http://img/p.jpg"),
          (originalImageCacheKey "http://img/p.jpg",
            "jpeg100:blur30:img:raw:http://img/p.jpg")],
        [Event.decodeTry]) := by
  refine ⟨by decide, by decide, by decide⟩

/-! ## The discovery refresh loop -/

/-- One scraped candidate: the nested JSON node with its id, video flag
and display URL. -/
structure InstagramNode where
  id : String
  isVideo : Bool
  displaySrc : String
deriving DecidableEq

structure InstagramTopPosts where
  nodes : List InstagramNode
deriving DecidableEq

structure InstagramTag where
  topPosts : InstagramTopPosts
deriving DecidableEq

structure InstagramTagPage where
  tag : InstagramTag
deriving DecidableEq

structure InstagramEntryData where
  tagPage : List InstagramTagPage
deriving DecidableEq

structure InstagramTagPageData where
  entryData : InstagramEntryData
deriving DecidableEq

/-- The allowed-extension filter, the regex (?i)\.(je?pg|png)$ of the
source: a case-insensitive suffix match on .jpg, .jepg or .png (note
that je?pg accepts jpg and jepg, not jpeg). -/
def allowedImageExtension (url : String) : Bool :=
  let lower := url.data.map Char.toLower
  ".jpg".data.isSuffixOf lower || ".jepg".data.isSuffixOf lower ||
    ".png".data.isSuffixOf lower

/-- Outcome of one discovery attempt: failed network fetch, the shared
data pattern missing from the page, unparsable JSON, or a parsed page. -/
inductive DiscoveryResult where
  | fetchFailed
  | patternNotFound
  | jsonInvalid
  | parsed (d : InstagramTagPageData)
deriving DecidableEq

def DiscoveryResult.isFailure : DiscoveryResult → Bool
  | DiscoveryResult.fetchFailed => true
  | DiscoveryResult.patternNotFound => true
  | DiscoveryResult.jsonInvalid => true
  | DiscoveryResult.parsed _ => false

/-- The nested collection loop: for every tag page, for every node, keep
displaySrc when the node is not a video and passes the extension filter,
appending in order. -/
def collectImageURLs (d : InstagramTagPageData) : List String :=
  d.entryData.tagPage.foldl
    (fun acc page =>
      page.tag.topPosts.nodes.foldl
        (fun acc2 node =>
          if node.isVideo == false && allowedImageExtension node.displaySrc then
            acc2 ++ [node.displaySrc]
          else acc2)
        acc)
    []

/-- One iteration of the background refresh loop, as a function of the
discovery outcome.  The boolean records whether the iteration reached
the precache hand-off and the end-of-cycle sleep: every error path hits
a continue placed before the sleep and so retries immediately. -/
def refreshIteration (imageURLs : List String) (result : DiscoveryResult) :
    List String × Bool :=
  match result with
  | DiscoveryResult.fetchFailed => (imageURLs, false)
  | DiscoveryResult.patternNotFound => (imageURLs, false)
  | DiscoveryResult.jsonInvalid => (imageURLs, false)
  | DiscoveryResult.parsed d => (collectImageURLs d, true)

lemma nodes_fold_of_rejected (nodes : List InstagramNode)
    (hall : ∀ node ∈ nodes, node.isVideo = true ∨ allowedImageExtension node.displaySrc = false) :
    ∀ acc : List String,
      nodes.foldl
        (fun acc2 node =>
          if node.isVideo == false && allowedImageExtension node.displaySrc then
            acc2 ++ [node.displaySrc]
          else acc2)
        acc = acc := by
  induction nodes with
  | nil => intro acc; rfl
  | cons node rest ih =>
    intro acc
    have hcond : (node.isVideo == false && allowedImageExtension node.displaySrc) = false := by
      rcases hall node (List.mem_cons_self node rest) with h | h
      · simp [h]
      · simp [h]
    simp only [List.foldl_cons, hcond, Bool.false_eq_true, if_false]
    exact ih (fun n hn => hall n (List.mem_cons_of_mem node hn)) acc

lemma collectImageURLs_eq_nil (d : InstagramTagPageData)
    (hall : ∀ page ∈ d.entryData.tagPage, ∀ node ∈ page.tag.topPosts.nodes,
      node.isVideo = true ∨ allowedImageExtension node.displaySrc = false) :
    collectImageURLs d = [] := by
  unfold collectImageURLs
  generalize hp : d.entryData.tagPage = pages at hall
  clear hp
  induction pages with
  | nil => rfl
  | cons page rest ih =>
    simp only [List.foldl_cons]
    rw [nodes_fold_of_rejected page.tag.topPosts.nodes
      (hall page (List.mem_cons_self page rest)) []]
    exact ih (fun p hp => hall p (List.mem_cons_of_mem page hp))

/-- C8 fails on the code in its timing clause: on a failed discovery
cycle the loop does keep the pool and does not crash, but the continue
statements sit before the end-of-cycle sleep, so the retry is immediate
rather than on the next scheduled tick. -/
theorem C8_counterexample :
    refreshIteration ["http://a/1.jpg"] DiscoveryResult.fetchFailed =
        (["http://a/1.jpg"], false) ∧
    ¬(refreshIteration ["http://a/1.jpg"] DiscoveryResult.fetchFailed =
        (["http://a/1.jpg"], true)) := by
  refine ⟨by decide, by decide⟩

/-- C8 (amended): on any failed discovery outcome the pool is left
unchanged and the loop retries immediately, without the end-of-cycle
sleep; the unchanged pool stays queryable: any defined size whose
(url, size) entry is cached is still served from the cache. -/
theorem C8_theorem (imageURLs : List String) (result : DiscoveryResult)
    (hfail : result.isFailure = true) :
    refreshIteration imageURLs result = (imageURLs, false) ∧
    ∀ {Blob Img : Type} (ops : ImageOps Blob Img) (cache : Cache Blob) (randValue : Nat)
      (sizeName : String) (size : ImageSize) (b : Blob),
      sizesGet getImageSizes sizeName = some size →
      imageURLs ≠ [] →
      cacheGet cache
          (imageCacheKey (imageURLs.getD (randValue % imageURLs.length) "") size) = some b →
      sendImage ops cache (refreshIteration imageURLs result).1 randValue sizeName =
        (Response.okImage "image/jpeg" b, cache, []) := by
  have hpool : refreshIteration imageURLs result = (imageURLs, false) := by
    cases result with
    | fetchFailed => rfl
    | patternNotFound => rfl
    | jsonInvalid => rfl
    | parsed d => simp [DiscoveryResult.isFailure] at hfail
  refine ⟨hpool, ?_⟩
  intro Blob Img ops cache randValue sizeName size b hfound hne hcache
  rw [hpool]
  have hlen : ¬(imageURLs.length = 0) := by
    simpa [List.length_eq_zero] using hne
  simp only [sendImage, hfound, if_neg hlen, getImage, hcache]

/-- Witness for C8: a failed fetch keeps the one-element pool, and a
cached small rendition of its url is still served afterwards. -/
theorem C8_witness :
    refreshIteration ["http://a/1.jpg"] DiscoveryResult.fetchFailed =
        (["http://a/1.jpg"], false) ∧
    sendImage testOps [(imageCacheKey "http://a/1.jpg" ⟨"small", 640, 640⟩, "B")]
        (refreshIteration ["http://a/1.jpg"] DiscoveryResult.fetchFailed).1 0 "small" =
      (Response.okImage "image/jpeg" "B",
        [(imageCacheKey "http://a/1.jpg" ⟨"small", 640, 640⟩, "B")], []) := by
  obtain ⟨h1, h2⟩ := C8_theorem ["http://a/1.jpg"] DiscoveryResult.fetchFailed (by decide)
  exact ⟨h1, h2 testOps [(imageCacheKey "http://a/1.jpg" ⟨"small", 640, 640⟩, "B")] 0
    "small" ⟨"small", 640, 640⟩ "B" (by decide) (by decide) (by decide)⟩

/-- C10: a discovery cycle that parses but yields no acceptable node
(every candidate is a video or fails the extension filter) replaces the
pool with the empty list — it does not keep the previous pool — and
afterwards every request for a defined size takes the
service-unavailable path. -/
theorem C10_theorem (imageURLs : List String) (d : InstagramTagPageData)
    (hall : ∀ page ∈ d.entryData.tagPage, ∀ node ∈ page.tag.topPosts.nodes,
      node.isVideo = true ∨ allowedImageExtension node.displaySrc = false) :
    refreshIteration imageURLs (DiscoveryResult.parsed d) = ([], true) ∧
    ∀ {Blob Img : Type} (ops : ImageOps Blob Img) (cache : Cache Blob) (randValue : Nat)
      (sizeName : String) (size : ImageSize),
      sizesGet getImageSizes sizeName = some size →
      sendImage ops cache (refreshIteration imageURLs (DiscoveryResult.parsed d)).1
          randValue sizeName =
        (Response.serviceUnavailable unavailableMessage, cache, []) := by
  have hnil : refreshIteration imageURLs (DiscoveryResult.parsed d) = ([], true) := by
    simp [refreshIteration, collectImageURLs_eq_nil d hall]
  refine ⟨hnil, ?_⟩
  intro Blob Img ops cache randValue sizeName size hfound
  rw [hnil]
  exact sendImage_empty_pool ops cache randValue sizeName size hfound

/-- A parsed page whose three nodes are all rejected: a video, a .gif,
and a .jpeg (which the je?pg pattern of the source does not accept). -/
def discoveryAllRejected : InstagramTagPageData :=
  ⟨⟨[⟨⟨⟨[⟨"1", true, "http://i/a.jpg"⟩,
         ⟨"2", false, "http://i/b.gif"⟩,
         ⟨"3", false, "http://i/c.jpeg"⟩]⟩⟩⟩]⟩⟩

/-- Witness for C10 on a concrete all-rejected discovery result. -/
theorem C10_witness :
    refreshIteration ["http://old/1.jpg"] (DiscoveryResult.parsed discoveryAllRejected) =
        ([], true) ∧
    sendImage testOps ([] : Cache String)
        (refreshIteration ["http://old/1.jpg"]
          (DiscoveryResult.parsed discoveryAllRejected)).1 0 "large" =
      (Response.serviceUnavailable unavailableMessage, [], []) := by
  obtain ⟨h1, h2⟩ := C10_theorem ["http://old/1.jpg"] discoveryAllRejected (by decide)
  exact ⟨h1, h2 testOps [] 0 "large" ⟨"large", 1024, 1024⟩ (by decide)⟩

end RandomBackground
